import Mathlib

/-!
Verification of the invoice financial model, invoice repository and PDF
pagination of the Transportation-Management-System billing module.

The TypeScript source is embedded shallowly:

* JavaScript numbers are modelled by `JsNum`: a finite rational, `NaN`, or a
  signed infinity.  The arithmetic and comparison operators used by the
  source (`+`, `-`, `<`, `>=`, `Math.max`, `Number.isFinite`, `x || 0`) are
  given their JavaScript semantics on this type.
* The current date (`new Date()` stripped of its time component) is passed
  explicitly as an integer encoding `year*10000 + month*100 + day` of the
  current calendar day; `new Date("YYYY-MM-DD")` is modelled by `dateVal`.
* `localStorage` persistence is modelled by passing the `Store` value in and
  out of every repository operation; a thrown exception is an `Except.error`
  and leaves the persisted store untouched (`persistAfter`).
* Random `uuid()` values are supplied by explicit id parameters, which the
  source never branches on.
-/

namespace TMS

/-- A JavaScript number: a finite rational, `NaN`, or ±∞ (`inf true` = +∞). -/
inductive JsNum where
  | nan : JsNum
  | inf : Bool → JsNum
  | num : ℚ → JsNum
deriving DecidableEq, Repr

/-- JavaScript `<`.  Any comparison with `NaN` is `false`. -/
def jsLt : JsNum → JsNum → Bool
  | .nan, _ => false
  | _, .nan => false
  | .inf true, _ => false
  | .inf false, .inf false => false
  | .inf false, _ => true
  | .num _, .inf true => true
  | .num _, .inf false => false
  | .num a, .num b => decide (a < b)

/-- JavaScript `<=`.  Any comparison with `NaN` is `false`. -/
def jsLe : JsNum → JsNum → Bool
  | .nan, _ => false
  | _, .nan => false
  | .inf true, .inf true => true
  | .inf true, _ => false
  | .inf false, _ => true
  | .num _, .inf true => true
  | .num _, .inf false => false
  | .num a, .num b => decide (a ≤ b)

/-- JavaScript `a >= b`. -/
def jsGe (a b : JsNum) : Bool := jsLe b a

/-- JavaScript addition: `NaN` propagates, `∞ + (-∞) = NaN`. -/
def jsAdd : JsNum → JsNum → JsNum
  | .nan, _ => .nan
  | _, .nan => .nan
  | .inf s, .inf t => if s = t then .inf s else .nan
  | .inf s, .num _ => .inf s
  | .num _, .inf t => .inf t
  | .num a, .num b => .num (a + b)

/-- JavaScript unary minus. -/
def jsNeg : JsNum → JsNum
  | .nan => .nan
  | .inf s => .inf (!s)
  | .num a => .num (-a)

/-- JavaScript subtraction `a - b`. -/
def jsSub (a b : JsNum) : JsNum := jsAdd a (jsNeg b)

/-- JavaScript `Math.max`: `NaN` if either argument is `NaN`. -/
def jsMax : JsNum → JsNum → JsNum
  | .nan, _ => .nan
  | _, .nan => .nan
  | a, b => if jsLt a b then b else a

/-- JavaScript `Number.isFinite`. -/
def jsFinite : JsNum → Bool
  | .num _ => true
  | _ => false

/-- JavaScript `x || 0` applied to a number: the falsy numbers `NaN` and `0`
become `0` (for `0` the result is the same value), everything else is kept. -/
def jsOrZero : JsNum → JsNum
  | .nan => .num 0
  | x => x

/-- `xs.reduce((s, a) => s + (Number(a) || 0), 0)` — the amount-summing fold
used by `computeTotals` (billing.ts lines 56–57) and `createInvoice`. -/
def sumAmounts (l : List JsNum) : JsNum :=
  l.foldl (fun s a => jsAdd s (jsOrZero a)) (.num 0)

/-- `InvoiceStatus` enumeration from billing.ts. -/
inductive InvoiceStatus where
  | Unpaid : InvoiceStatus
  | Paid : InvoiceStatus
  | Overdue : InvoiceStatus
deriving DecidableEq, Repr

/-- `InvoiceItem` from billing.ts. -/
structure InvoiceItem where
  id : String
  invoice_id : String
  description : String
  amount : JsNum
deriving DecidableEq, Repr

/-- `Payment` from billing.ts. -/
structure Payment where
  id : String
  invoice_id : String
  amount : JsNum
  payment_date : String
  payment_method : String
deriving DecidableEq, Repr

/-- `Invoice` from billing.ts.  `items` and `payments` are optional expansions
(`items?`, `payments?`).  `status` is declared required in the interface, but
records come out of `JSON.parse` unvalidated, and the repository guards reads
with `i.status ?? deriveStatus(i)`; it is therefore modelled as optional. -/
structure Invoice where
  id : String
  booking_id : String
  invoice_number : String
  total_amount : JsNum
  due_date : String
  status : Option InvoiceStatus
  items : Option (List InvoiceItem)
  payments : Option (List Payment)
deriving DecidableEq, Repr

/-- Result record of `computeTotals`. -/
structure Totals where
  itemsTotal : JsNum
  total : JsNum
  paid : JsNum
  balance : JsNum
deriving DecidableEq, Repr

/-- `computeTotals` (billing.ts lines 55–62). -/
def computeTotals (invoice : Invoice) : Totals :=
  let itemsTotal := sumAmounts ((invoice.items.getD []).map (fun it => it.amount))
  let paid := sumAmounts ((invoice.payments.getD []).map (fun p => p.amount))
  let total := if jsFinite invoice.total_amount && jsLt (.num 0) invoice.total_amount
               then invoice.total_amount else itemsTotal
  let balance := jsMax (.num 0) (jsSub total paid)
  ⟨itemsTotal, total, paid, balance⟩

/-- `new Date(s)` restricted to the `YYYY-MM-DD` strings the module stores in
`due_date`: the calendar day encoded as `year*10000 + month*100 + day`, or
`none` for a string that does not parse as a date (an Invalid Date, every
comparison on which is false).  Day validity is checked against the coarse
bound 31. -/
def dateVal (s : String) : Option Int :=
  match s.toList with
  | [y1, y2, y3, y4, '-', m1, m2, '-', d1, d2] =>
    if (y1.isDigit && y2.isDigit && y3.isDigit && y4.isDigit &&
        m1.isDigit && m2.isDigit && d1.isDigit && d2.isDigit) then
      let y := ((y1.toNat - 48) * 10 + (y2.toNat - 48)) * 10 * 10 +
               (y3.toNat - 48) * 10 + (y4.toNat - 48)
      let m := (m1.toNat - 48) * 10 + (m2.toNat - 48)
      let d := (d1.toNat - 48) * 10 + (d2.toNat - 48)
      if 1 ≤ m && m ≤ 12 && 1 ≤ d && d ≤ 31 then
        some ((y : Int) * 10000 + (m : Int) * 100 + (d : Int))
      else none
    else none
  | _ => none

/-- `new Date(invoice.due_date) < new Date(today.toDateString())`
(billing.ts line 69): false when the due date does not parse. -/
def dueBefore (today : Int) (due_date : String) : Bool :=
  match dateVal due_date with
  | some d => decide (d < today)
  | none => false

/-- `deriveStatus` (billing.ts lines 64–71); `today` is the current calendar
day, time-stripped. -/
def deriveStatus (today : Int) (invoice : Invoice) : InvoiceStatus :=
  let t := computeTotals invoice
  if jsGe t.paid t.total && jsLt (.num 0) t.total then .Paid
  else if jsLt t.paid t.total && dueBefore today invoice.due_date then .Overdue
  else .Unpaid

/-- `Math.max(0, x)` is never a negative number, for every JavaScript `x`
(including `NaN`, where the result is `NaN` and `NaN < 0` is false). -/
theorem jsLt_jsMax_zero (x : JsNum) : jsLt (jsMax (.num 0) x) (.num 0) = false := by
  cases x with
  | nan => rfl
  | inf s => cases s <;> rfl
  | num a =>
    simp only [jsMax]
    cases hlt : jsLt (JsNum.num 0) (JsNum.num a) with
    | false => simp [jsLt]
    | true =>
      simp only [if_true, reduceIte, jsLt, decide_eq_false_iff_not, not_lt]
      simp only [jsLt, decide_eq_true_eq] at hlt
      exact le_of_lt hlt

/-- A JavaScript number that is finite or `NaN` — i.e. not an infinity. -/
def finOrNaN : JsNum → Bool
  | .inf _ => false
  | _ => true

/-- The rational contribution of an amount after the `Number(x) || 0`
coercion: a finite value contributes itself, anything else contributes 0. -/
def ratOf : JsNum → ℚ
  | .num a => a
  | _ => 0

/-- Sum of the coerced rational contributions of a list of amounts. -/
def ratSum (l : List JsNum) : ℚ := (l.map ratOf).sum

theorem sumAmounts_foldl_finOrNaN (l : List JsNum) (a : ℚ)
    (h : ∀ x ∈ l, finOrNaN x = true) :
    l.foldl (fun s x => jsAdd s (jsOrZero x)) (.num a) = .num (a + ratSum l) := by
  induction l generalizing a with
  | nil => simp [ratSum]
  | cons x xs ih =>
    have hx : finOrNaN x = true := h x (List.mem_cons_self x xs)
    have hxs : ∀ y ∈ xs, finOrNaN y = true := fun y hy => h y (List.mem_cons_of_mem x hy)
    have hstep : jsAdd (.num a) (jsOrZero x) = .num (a + ratOf x) := by
      cases x with
      | nan => simp [jsOrZero, jsAdd, ratOf]
      | inf s => simp [finOrNaN] at hx
      | num b => simp [jsOrZero, jsAdd, ratOf]
    calc (x :: xs).foldl (fun s y => jsAdd s (jsOrZero y)) (.num a)
        = xs.foldl (fun s y => jsAdd s (jsOrZero y)) (.num (a + ratOf x)) := by
          rw [List.foldl_cons, hstep]
      _ = .num ((a + ratOf x) + ratSum xs) := ih _ hxs
      _ = .num (a + ratSum (x :: xs)) := by
          simp [ratSum, List.map_cons, List.sum_cons]; ring

/-- When every amount in the list is finite or `NaN`, the JavaScript sum is
the finite rational sum with `NaN` contributing 0. -/
theorem sumAmounts_eq_ratSum (l : List JsNum) (h : ∀ x ∈ l, finOrNaN x = true) :
    sumAmounts l = .num (ratSum l) := by
  have := sumAmounts_foldl_finOrNaN l 0 h
  simpa [sumAmounts] using this

/-- Claim C1: for every invoice, `computeTotals` returns `total` equal to
`invoice.total_amount` when that field is a finite number strictly greater
than 0 and equal to the sum of the item amounts (`itemsTotal`) otherwise, and
returns `balance = max(0, total - paid)`, which is never negative even when
`paid` exceeds `total`. -/
theorem c1_computeTotals_total_and_balance (inv : Invoice) :
    (computeTotals inv).total =
      (if jsFinite inv.total_amount && jsLt (.num 0) inv.total_amount
       then inv.total_amount else (computeTotals inv).itemsTotal) ∧
    (computeTotals inv).balance =
      jsMax (.num 0) (jsSub (computeTotals inv).total (computeTotals inv).paid) ∧
    jsLt (computeTotals inv).balance (.num 0) = false := by
  refine ⟨rfl, rfl, ?_⟩
  exact jsLt_jsMax_zero _

/-- An invoice whose single item carries the amount `+∞` (a value of the
TypeScript type `number`). -/
def invInfItem : Invoice :=
  { id := "i1", booking_id := "b1", invoice_number := "INV-2025-0001",
    total_amount := .num 0, due_date := "2025-01-01", status := some .Unpaid,
    items := some [{ id := "it1", invoice_id := "i1", description := "x",
                     amount := .inf true }],
    payments := none }

/-- Claim C10 as stated is false: an invoice whose item amount is the number
`+Infinity` makes `computeTotals` return a non-finite `itemsTotal` (and a
non-finite `balance`) — `Infinity || 0` is `Infinity`, not 0. -/
theorem c10_counterexample_infinite_amount :
    (computeTotals invInfItem).itemsTotal = .inf true ∧
    jsFinite (computeTotals invInfItem).itemsTotal = false ∧
    jsFinite (computeTotals invInfItem).balance = false := by
  refine ⟨rfl, rfl, rfl⟩

/-- Claim C10 (amended): for every invoice whose item and payment amounts are
each finite or `NaN` (no infinite amounts), `computeTotals` returns finite
values: `itemsTotal` and `paid` are the finite rational sums in which each
`NaN` (non-numeric) amount contributes 0, `balance` is finite, and a
non-finite `total_amount` is ignored in favor of `itemsTotal`. -/
theorem c10_totals_finite (inv : Invoice)
    (hIt : ∀ it ∈ inv.items.getD [], finOrNaN it.amount = true)
    (hP : ∀ p ∈ inv.payments.getD [], finOrNaN p.amount = true) :
    (computeTotals inv).itemsTotal =
      .num (ratSum ((inv.items.getD []).map (fun it => it.amount))) ∧
    (computeTotals inv).paid =
      .num (ratSum ((inv.payments.getD []).map (fun p => p.amount))) ∧
    jsFinite (computeTotals inv).itemsTotal = true ∧
    jsFinite (computeTotals inv).paid = true ∧
    jsFinite (computeTotals inv).balance = true ∧
    (jsFinite inv.total_amount = false →
      (computeTotals inv).total = (computeTotals inv).itemsTotal) := by
  have hit : sumAmounts ((inv.items.getD []).map (fun it => it.amount)) =
      .num (ratSum ((inv.items.getD []).map (fun it => it.amount))) := by
    apply sumAmounts_eq_ratSum
    intro x hx
    rcases List.mem_map.mp hx with ⟨it, hmem, heq⟩
    exact heq ▸ hIt it hmem
  have hpd : sumAmounts ((inv.payments.getD []).map (fun p => p.amount)) =
      .num (ratSum ((inv.payments.getD []).map (fun p => p.amount))) := by
    apply sumAmounts_eq_ratSum
    intro x hx
    rcases List.mem_map.mp hx with ⟨p, hmem, heq⟩
    exact heq ▸ hP p hmem
  have htot : jsFinite (computeTotals inv).total = true := by
    show jsFinite (if jsFinite inv.total_amount && jsLt (.num 0) inv.total_amount
         then inv.total_amount else _) = true
    split
    · rename_i hc
      simp only [Bool.and_eq_true] at hc
      exact hc.1
    · rw [hit]; rfl
  refine ⟨hit, hpd, by rw [show (computeTotals inv).itemsTotal = _ from hit]; rfl,
          by rw [show (computeTotals inv).paid = _ from hpd]; rfl, ?_, ?_⟩
  · show jsFinite (jsMax (.num 0) (jsSub (computeTotals inv).total (computeTotals inv).paid)) = true
    rcases hf : (computeTotals inv).total with _ | s | q
    · rw [hf] at htot; exact absurd htot (by simp [jsFinite])
    · rw [hf] at htot; exact absurd htot (by simp [jsFinite])
    · rw [show (computeTotals inv).paid = _ from hpd]
      simp only [jsSub, jsNeg, jsAdd, jsMax]
      split <;> rfl
  · intro hnf
    show (if jsFinite inv.total_amount && jsLt (.num 0) inv.total_amount
          then inv.total_amount else (computeTotals inv).itemsTotal) = _
    rw [hnf]
    simp

/-- An invoice with `NaN` amounts among finite ones, exercising the amended
claim C10 at a concrete input. -/
def invNaN : Invoice :=
  { id := "i2", booking_id := "b2", invoice_number := "INV-2025-0002",
    total_amount := .nan, due_date := "2025-01-01", status := some .Unpaid,
    items := some [{ id := "a", invoice_id := "i2", description := "x", amount := .nan },
                   { id := "b", invoice_id := "i2", description := "y", amount := .num 7 }],
    payments := some [{ id := "p", invoice_id := "i2", amount := .num 3,
                        payment_date := "2025-01-02T00:00:00.000Z",
                        payment_method := "UPI" }] }

/-- Witness for the amended claim C10 at the concrete invoice `invNaN`. -/
theorem c10_totals_finite_witness :
    (computeTotals invNaN).itemsTotal = .num 7 ∧
    (computeTotals invNaN).paid = .num 3 ∧
    jsFinite (computeTotals invNaN).balance = true ∧
    (computeTotals invNaN).total = (computeTotals invNaN).itemsTotal := by
  have h := c10_totals_finite invNaN (by decide) (by decide)
  refine ⟨?_, ?_, h.2.2.2.2.1, h.2.2.2.2.2 (by decide)⟩
  · rw [h.1]; norm_num [invNaN, ratSum, ratOf]
  · rw [h.2.1]; norm_num [invNaN, ratSum, ratOf]

/-- An invoice with a positive total, nothing paid, due on 2025-06-10. -/
def invJune : Invoice :=
  { id := "i3", booking_id := "b3", invoice_number := "INV-2025-0003",
    total_amount := .num 100, due_date := "2025-06-10", status := some .Unpaid,
    items := none, payments := none }

/-- Claim C6 as stated is false for `deriveStatus`: the source reads the
current clock (`new Date()`), so two calls on the unchanged invoice made on
different calendar days can differ — on its due day `invJune` is `Unpaid`,
one day later the same unchanged invoice is `Overdue`. -/
theorem c6_counterexample_clock_dependence :
    deriveStatus 20250610 invJune = .Unpaid ∧
    deriveStatus 20250611 invJune = .Overdue ∧
    deriveStatus 20250610 invJune ≠ deriveStatus 20250611 invJune := by
  refine ⟨by decide, by decide, by decide⟩

/-- Claim C6 (amended): `computeTotals` is a pure function of the invoice's
`items`, `payments` and `total_amount` fields, and `deriveStatus` is a pure
function of those fields, `due_date`, and the current calendar day: two
invoices agreeing on those inputs give identical results, so repeated calls
on an unchanged invoice within the same calendar day agree. -/
theorem c6_purity (i1 i2 : Invoice) (today : Int)
    (hi : i1.items = i2.items) (hp : i1.payments = i2.payments)
    (ht : i1.total_amount = i2.total_amount) :
    computeTotals i1 = computeTotals i2 ∧
    (i1.due_date = i2.due_date → deriveStatus today i1 = deriveStatus today i2) := by
  have hct : computeTotals i1 = computeTotals i2 := by
    unfold computeTotals
    rw [hi, hp, ht]
  refine ⟨hct, fun hd => ?_⟩
  unfold deriveStatus
  rw [hct, hd]

/-- Witness for the amended claim C6: `invJune` and a copy with a different
`status` field agree under `computeTotals` and `deriveStatus`. -/
theorem c6_purity_witness :
    computeTotals invJune = computeTotals { invJune with status := some .Paid } ∧
    deriveStatus 20250611 invJune =
      deriveStatus 20250611 { invJune with status := some .Paid } := by
  have h := c6_purity invJune { invJune with status := some .Paid } 20250611 rfl rfl rfl
  exact ⟨h.1, h.2 rfl⟩

/-- JavaScript `hay.includes(needle)` on the underlying character lists. -/
def containsSub (hay needle : List Char) : Bool :=
  match hay with
  | [] => needle.isEmpty
  | _ :: t => needle.isPrefixOf hay || containsSub t needle

/-- JavaScript `a < b` on strings: lexicographic comparison of the character
sequences. -/
def strLtJs (a b : String) : Bool :=
  charsLt a.toList b.toList
where
  charsLt : List Char → List Char → Bool
    | [], [] => false
    | [], _ :: _ => true
    | _ :: _, [] => false
    | a :: as, b :: bs => decide (a < b) || (decide (a = b) && charsLt as bs)

/-- JavaScript `a >= b` on strings. -/
def strGeJs (a b : String) : Bool := !(strLtJs a b)

/-- JavaScript `a <= b` on strings. -/
def strLeJs (a b : String) : Bool := !(strLtJs b a)

/-- The value of `filters.status`: the literal `'All'` or one invoice status. -/
inductive StatusFilter where
  | all : StatusFilter
  | only : InvoiceStatus → StatusFilter
deriving DecidableEq, Repr

/-- `InvoiceFilters` from billing.ts: all four fields optional. -/
structure InvoiceFilters where
  status : Option StatusFilter
  query : Option String
  dueFrom : Option String
  dueTo : Option String
deriving DecidableEq, Repr

/-- The store persisted under the `tsm.billing.v1` key. -/
structure Store where
  invoices : List Invoice
deriving DecidableEq, Repr

/-- The refresh applied by `listInvoices` and `getInvoice` before an invoice
is handed back: `{ ...i, status: deriveStatus(i), total_amount:
computeTotals(i).total }`. -/
def refresh (today : Int) (i : Invoice) : Invoice :=
  { i with status := some (deriveStatus today i),
           total_amount := (computeTotals i).total }

/-- `listInvoices` (repository lines 48–68).  The guards written
`filters?.x && …` skip a filter whose value is absent or the falsy empty
string. -/
def listInvoices (today : Int) (filters : Option InvoiceFilters) (store : Store) :
    List Invoice :=
  let d0 : List Invoice := store.invoices
  let d1 := match filters.bind (fun f => f.status) with
            | some (.only s) =>
              d0.filter (fun (i : Invoice) =>
                decide ((i.status.getD (deriveStatus today i)) = s))
            | _ => d0
  let d2 := match filters.bind (fun f => f.query) with
            | some q =>
              if q = "" then d1 else
                d1.filter (fun i =>
                  containsSub i.invoice_number.toLower.toList q.toLower.toList ||
                  containsSub i.booking_id.toLower.toList q.toLower.toList)
            | none => d1
  let d3 := match filters.bind (fun f => f.dueFrom) with
            | some df => if df = "" then d2 else d2.filter (fun i => strGeJs i.due_date df)
            | none => d2
  let d4 := match filters.bind (fun f => f.dueTo) with
            | some dt => if dt = "" then d3 else d3.filter (fun i => strLeJs i.due_date dt)
            | none => d3
  d4.map (refresh today)

/-- `getInvoice` (repository lines 70–74): `none` when not found, otherwise
the refreshed record. -/
def getInvoice (today : Int) (store : Store) (id : String) : Option Invoice :=
  match store.invoices.find? (fun i => decide (i.id = id)) with
  | some inv => some (refresh today inv)
  | none => none

/-- An invoice whose persisted `status` field says `Paid` although its
derived status is `Unpaid` (total 100, nothing paid, due far in the future). -/
def invStalePaid : Invoice :=
  { id := "i4", booking_id := "b4", invoice_number := "INV-2025-0004",
    total_amount := .num 100, due_date := "2099-01-01", status := some .Paid,
    items := none, payments := none }

/-- Claim C4 as stated is false: the status filter compares the stored
`status` (`i.status ?? deriveStatus(i)`), not the derived one.  An invoice
whose derived status is `Unpaid` but whose stored status is `Paid` is dropped
by the filter `status = Unpaid`. -/
theorem c4_counterexample_stored_status :
    deriveStatus 20250610 invStalePaid = .Unpaid ∧
    listInvoices 20250610
      (some { status := some (.only .Unpaid), query := none,
              dueFrom := none, dueTo := none })
      { invoices := [invStalePaid] } = [] := by
  exact ⟨by decide, by decide⟩

/-- Claim C4 (amended): for a status filter other than `All` (and no other
filters), `listInvoices` keeps exactly the invoices whose stored status — or
derived status when no stored status is present — equals the filter value,
and hands each of them back refreshed (with the status field re-derived). -/
theorem c4_status_filter (today : Int) (s : InvoiceStatus) (store : Store)
    (inv : Invoice) :
    inv ∈ listInvoices today
      (some { status := some (.only s), query := none,
              dueFrom := none, dueTo := none }) store ↔
    ∃ raw ∈ store.invoices,
      raw.status.getD (deriveStatus today raw) = s ∧ inv = refresh today raw := by
  show inv ∈ (store.invoices.filter
      (fun i => decide ((i.status.getD (deriveStatus today i)) = s))).map (refresh today) ↔ _
  rw [List.mem_map]
  constructor
  · rintro ⟨raw, hraw, heq⟩
    rw [List.mem_filter] at hraw
    exact ⟨raw, hraw.1, of_decide_eq_true hraw.2, heq.symm⟩
  · rintro ⟨raw, hmem, hst, heq⟩
    exact ⟨raw, List.mem_filter.mpr ⟨hmem, decide_eq_true hst⟩, heq.symm⟩

/-- Witness for the amended claim C4: with the stored-`Paid` invoice above,
the `Paid` filter keeps it (even though its derived status is `Unpaid`). -/
theorem c4_status_filter_witness :
    refresh 20250610 invStalePaid ∈ listInvoices 20250610
      (some { status := some (.only .Paid), query := none,
              dueFrom := none, dueTo := none })
      { invoices := [invStalePaid] } := by
  exact (c4_status_filter 20250610 .Paid { invoices := [invStalePaid] }
    (refresh 20250610 invStalePaid)).mpr
    ⟨invStalePaid, by decide, by decide, rfl⟩

/-- JavaScript `parseInt(s, 10)`: skip leading whitespace, take an optional
sign and the longest run of decimal digits; `none` models `NaN`. -/
def parseIntJs (s : String) : Option Int :=
  let cs := s.toList.dropWhile (fun c => c == ' ' || c == '\t' || c == '\n' || c == '\r')
  match cs with
  | '-' :: rest => (digitsVal rest).map (fun n => -(n : Int))
  | '+' :: rest => (digitsVal rest).map (fun n => (n : Int))
  | _ => (digitsVal cs).map (fun n => (n : Int))
where
  digitsVal (cs : List Char) : Option Nat :=
    let ds := cs.takeWhile Char.isDigit
    if ds.isEmpty then none
    else some (ds.foldl (fun a c => a * 10 + (c.toNat - 48)) 0)

/-- JavaScript `s.startsWith(pre)`, on the underlying character lists. -/
def jsStartsWith (s pre : String) : Bool :=
  pre.toList.isPrefixOf s.toList

/-- JavaScript `s.substring(n)`: drop the first `n` characters. -/
def strDrop (s : String) (n : Nat) : String :=
  String.mk (s.toList.drop n)

/-- The character count of a string (JavaScript `s.length`). -/
def strLen (s : String) : Nat := s.toList.length

/-- JavaScript `s.padStart(4, '0')`: pad on the left up to length 4; longer
strings are returned unchanged. -/
def padStart4 (s : String) : String :=
  if strLen s < 4 then String.mk (List.replicate (4 - strLen s) '0') ++ s else s

/-- `nextInvoiceNumber` (repository lines 35–46); `year` is
`new Date().getFullYear()`.  `Math.max(...nums)` is the fold over the
non-empty list, guarded by `nums.length ? … : 0`. -/
def nextInvoiceNumber (year : Nat) (existing : List Invoice) : String :=
  let pref := "INV-" ++ toString year ++ "-"
  let nums := ((existing.map (fun i => i.invoice_number)).filter
      (fun n => jsStartsWith n pref)).filterMap
      (fun n => parseIntJs (strDrop n (strLen pref)))
  let next := (match nums with
    | [] => 0
    | x :: xs => xs.foldl (fun a b => if a < b then b else a) x) + 1
  pref ++ padStart4 (toString next)

/-- Exceptions the repository can throw. -/
inductive JsError where
  /-- `throw new Error('Invoice not found')`. -/
  | notFound : JsError
  /-- `RangeError` from `toISOString()` on an invalid date. -/
  | rangeError : JsError
  /-- `TypeError` from iterating a non-iterable value. -/
  | typeError : JsError
deriving DecidableEq, Repr

/-- `new Date(s).toISOString()` for the `YYYY-MM-DD` strings the UI supplies:
such a string parses at UTC midnight; an invalid date throws. -/
def toISO (s : String) : Option String :=
  (dateVal s).map (fun _ => s ++ "T00:00:00.000Z")

/-- `RecordPaymentInput` from billing.ts. -/
structure RecordPaymentInput where
  amount : JsNum
  payment_date : String
  payment_method : String
deriving DecidableEq, Repr

/-- One entry of `CreateInvoiceInput.items`. -/
structure CreateItemInput where
  description : String
  amount : JsNum
deriving DecidableEq, Repr

/-- `CreateInvoiceInput` from billing.ts. -/
structure CreateInvoiceInput where
  booking_id : String
  due_date : String
  items : List CreateItemInput
deriving DecidableEq, Repr

/-- Replace the first list entry satisfying `p` — the in-place mutation of the
record found by `store.invoices.find(...)`. -/
def updateFirst (p : Invoice → Bool) (f : Invoice → Invoice) :
    List Invoice → List Invoice
  | [] => []
  | x :: xs => if p x then f x :: xs else x :: updateFirst p f xs

/-- `createInvoice` (repository lines 76–95); `genId 0` is the invoice uuid,
`genId (k+1)` the uuid of the k-th item. -/
def createInvoice (year : Nat) (genId : Nat → String) (store : Store)
    (input : CreateInvoiceInput) : Store × Invoice :=
  let id := genId 0
  let invoiceNum := nextInvoiceNumber year store.invoices
  let items := input.items.enum.map (fun p =>
    ({ id := genId (p.1 + 1), invoice_id := id,
       description := p.2.description, amount := p.2.amount } : InvoiceItem))
  let total := sumAmounts (items.map (fun it => it.amount))
  let invoice : Invoice :=
    { id := id, booking_id := input.booking_id, invoice_number := invoiceNum,
      total_amount := total, due_date := input.due_date,
      status := some .Unpaid, items := some items, payments := some [] }
  (⟨store.invoices ++ [invoice]⟩, invoice)

/-- Lines 103–104 of `addInvoiceItem`, applied to the invoice with the new
item already appended: recompute `total_amount` from the item list
(itemsTotal form) and re-derive `status`. -/
def itemUpdate (today : Int) (inv1 : Invoice) : Invoice :=
  let inv2 := { inv1 with total_amount := (computeTotals inv1).itemsTotal }
  { inv2 with status := some (deriveStatus today inv2) }

/-- `addInvoiceItem` (repository lines 97–107). -/
def addInvoiceItem (today : Int) (itemId : String) (store : Store)
    (invoiceId description : String) (amount : JsNum) :
    Except JsError (Store × Invoice) :=
  match store.invoices.find? (fun i => decide (i.id = invoiceId)) with
  | none => .error .notFound
  | some inv =>
    let item : InvoiceItem :=
      { id := itemId, invoice_id := invoiceId, description := description,
        amount := amount }
    let inv3 := itemUpdate today { inv with items := some ((inv.items.getD []) ++ [item]) }
    .ok (⟨updateFirst (fun i => decide (i.id = invoiceId)) (fun _ => inv3)
            store.invoices⟩, inv3)

/-- Lines 121–123 of `recordPayment`, applied to the invoice with the new
payment already appended: cache the computed total and set `status = Paid`
if `paid >= total`, else re-derive. -/
def payUpdate (today : Int) (inv1 : Invoice) : Invoice :=
  let t := computeTotals inv1
  let inv2 := { inv1 with total_amount := t.total }
  { inv2 with status := some (if jsGe t.paid t.total then .Paid
                              else deriveStatus today inv2) }

/-- `recordPayment` (repository lines 109–126). -/
def recordPayment (today : Int) (payId : String) (store : Store)
    (invoiceId : String) (input : RecordPaymentInput) :
    Except JsError (Store × Invoice) :=
  match store.invoices.find? (fun i => decide (i.id = invoiceId)) with
  | none => .error .notFound
  | some inv =>
    match toISO input.payment_date with
    | none => .error .rangeError
    | some pd =>
      let payment : Payment :=
        { id := payId, invoice_id := invoiceId, amount := input.amount,
          payment_date := pd, payment_method := input.payment_method }
      let inv3 := payUpdate today
        { inv with payments := some ((inv.payments.getD []) ++ [payment]) }
      .ok (⟨updateFirst (fun i => decide (i.id = invoiceId)) (fun _ => inv3)
              store.invoices⟩, inv3)

/-- `deleteInvoice` (repository lines 128–132). -/
def deleteInvoice (id : String) (store : Store) : Store :=
  ⟨store.invoices.filter (fun i => !(decide (i.id = id)))⟩

/-- The store left persisted after an operation: a thrown exception
propagates before `save` is reached, so the old store survives. -/
def persistAfter (old : Store) (r : Except JsError (Store × Invoice)) : Store :=
  match r with
  | .ok (s, _) => s
  | .error _ => old

/-- The status characterization of claim C2 (in its amended, code-accurate
form), evaluated on an invoice record exactly as handed back: `Paid` iff
`paid ≥ total` and `total > 0`; else `Overdue` iff `paid < total` and the
due date is strictly before the current calendar day; else `Unpaid`. -/
def statusSpec (today : Int) (inv : Invoice) : InvoiceStatus :=
  let t := computeTotals inv
  if jsGe t.paid t.total && jsLt (.num 0) t.total then .Paid
  else if jsLt t.paid t.total && dueBefore today inv.due_date then .Overdue
  else .Unpaid

theorem computeTotals_set_status (i : Invoice) (st : Option InvoiceStatus) :
    computeTotals { i with status := st } = computeTotals i := rfl

theorem computeTotals_retotal (i : Invoice) (st : Option InvoiceStatus) :
    computeTotals { i with total_amount := (computeTotals i).total, status := st } =
    computeTotals i := by
  by_cases hc : (jsFinite i.total_amount && jsLt (.num 0) i.total_amount) = true
  · simp [computeTotals, hc]
  · simp [computeTotals, hc]

theorem statusSpec_congr (today : Int) (j i : Invoice)
    (hct : computeTotals j = computeTotals i) (hd : j.due_date = i.due_date) :
    statusSpec today j = deriveStatus today i := by
  unfold statusSpec deriveStatus
  rw [hct, hd]

theorem statusSpec_refresh (today : Int) (i : Invoice) :
    statusSpec today (refresh today i) = deriveStatus today i :=
  statusSpec_congr today _ i (computeTotals_retotal i _) rfl

theorem itemUpdate_status (today : Int) (inv1 : Invoice) :
    (itemUpdate today inv1).status = some (statusSpec today (itemUpdate today inv1)) := by
  have h : statusSpec today (itemUpdate today inv1) =
      deriveStatus today { inv1 with total_amount := (computeTotals inv1).itemsTotal } :=
    statusSpec_congr today _ _
      (computeTotals_set_status { inv1 with total_amount := (computeTotals inv1).itemsTotal } _)
      rfl
  rw [h]
  rfl

theorem computeTotals_payUpdate (today : Int) (inv1 : Invoice) :
    computeTotals (payUpdate today inv1) = computeTotals inv1 :=
  computeTotals_retotal inv1 _

theorem payUpdate_status (today : Int) (inv1 : Invoice) :
    (payUpdate today inv1).status =
    some (if jsGe (computeTotals (payUpdate today inv1)).paid
             (computeTotals (payUpdate today inv1)).total
          then .Paid else statusSpec today (payUpdate today inv1)) := by
  have hs : statusSpec today (payUpdate today inv1) =
      deriveStatus today { inv1 with total_amount := (computeTotals inv1).total } :=
    statusSpec_congr today _ _
      ((computeTotals_payUpdate today inv1).trans
        (computeTotals_retotal inv1 inv1.status).symm) rfl
  rw [computeTotals_payUpdate, hs]
  rfl

theorem listInvoices_is_map_refresh (today : Int) (f : Option InvoiceFilters)
    (store : Store) :
    ∃ l : List Invoice, listInvoices today f store = l.map (refresh today) :=
  ⟨_, rfl⟩

/-- An invoice with an empty item list and no payments: its total is 0. -/
def invZero : Invoice :=
  { id := "i5", booking_id := "b5", invoice_number := "INV-2025-0005",
    total_amount := .num 0, due_date := "2025-01-01", status := some .Unpaid,
    items := some [], payments := some [] }

/-- The payment of 5 recorded against `invZero`. -/
def pay5 : Payment :=
  { id := "p1", invoice_id := "i5", amount := .num 5,
    payment_date := "2025-06-01T00:00:00.000Z", payment_method := "UPI" }

/-- `invZero` with the payment of 5 recorded against it. -/
def invZeroPaid5 : Invoice :=
  { invZero with payments := some [pay5] }

/-- Claim C2 as stated is false: `recordPayment` marks an invoice `Paid`
whenever `paid >= total`, with no `total > 0` guard.  Recording a payment of
5 against the zero-total invoice `invZero` hands back an invoice whose
computed total is 0 and whose status is `Paid`, although the claim says an
invoice with `total = 0` is never `Paid` regardless of payments. -/
theorem c2_counterexample_zero_total_paid :
    (recordPayment 20250610 "p1" { invoices := [invZero] } "i5"
      { amount := .num 5, payment_date := "2025-06-01",
        payment_method := "UPI" }).toOption.map
      (fun p => (p.2.status, (computeTotals p.2).total)) =
    some (some .Paid, .num 0) := by
  have e1 : recordPayment 20250610 "p1" { invoices := [invZero] } "i5"
      { amount := .num 5, payment_date := "2025-06-01", payment_method := "UPI" } =
      .ok (⟨[payUpdate 20250610 invZeroPaid5]⟩, payUpdate 20250610 invZeroPaid5) := rfl
  have ht : (computeTotals invZeroPaid5).total = .num 0 := by decide
  have hp : (computeTotals invZeroPaid5).paid = .num 5 := by
    show sumAmounts ((invZeroPaid5.payments.getD []).map (fun p => p.amount)) = _
    norm_num [invZeroPaid5, pay5, sumAmounts, jsOrZero, jsAdd]
  have hge : jsGe (computeTotals invZeroPaid5).paid (computeTotals invZeroPaid5).total = true := by
    rw [hp, ht]; decide
  have hst : (payUpdate 20250610 invZeroPaid5).status = some InvoiceStatus.Paid := by
    show some (if jsGe (computeTotals invZeroPaid5).paid (computeTotals invZeroPaid5).total
               then InvoiceStatus.Paid
               else deriveStatus 20250610
                 { invZeroPaid5 with total_amount := (computeTotals invZeroPaid5).total }) = _
    rw [if_pos hge]
  rw [e1]
  show some ((payUpdate 20250610 invZeroPaid5).status,
             (computeTotals (payUpdate 20250610 invZeroPaid5)).total) = _
  rw [hst, computeTotals_payUpdate, ht]

/-- Claim C2 (amended): every invoice handed back by `listInvoices`,
`getInvoice` or `addInvoiceItem` carries the derived status of its own
fields: `Paid` iff `paid ≥ total` and `total > 0`; else `Overdue` iff
`paid < total` and `due_date` is strictly before the current calendar day;
else `Unpaid`.  `createInvoice` always hands back `Unpaid` (even when the due
date is already past), and `recordPayment` hands back `Paid` whenever
`paid ≥ total` — including `total = 0` — and the derived status otherwise. -/
theorem c2_status_invariant (today : Int) (f : Option InvoiceFilters)
    (store : Store) (id itemId payId desc : String) (amt : JsNum)
    (pin : RecordPaymentInput) (year : Nat) (genId : Nat → String)
    (cin : CreateInvoiceInput) :
    (∀ inv ∈ listInvoices today f store, inv.status = some (statusSpec today inv)) ∧
    (∀ inv, getInvoice today store id = some inv →
      inv.status = some (statusSpec today inv)) ∧
    (∀ s' inv, addInvoiceItem today itemId store id desc amt = .ok (s', inv) →
      inv.status = some (statusSpec today inv)) ∧
    ((createInvoice year genId store cin).2.status = some .Unpaid) ∧
    (∀ s' inv, recordPayment today payId store id pin = .ok (s', inv) →
      inv.status = some (if jsGe (computeTotals inv).paid (computeTotals inv).total
                         then .Paid else statusSpec today inv)) := by
  refine ⟨?_, ?_, ?_, rfl, ?_⟩
  · intro inv hmem
    obtain ⟨l, hl⟩ := listInvoices_is_map_refresh today f store
    rw [hl] at hmem
    obtain ⟨raw, _, hraw⟩ := List.mem_map.mp hmem
    subst hraw
    rw [statusSpec_refresh]
    rfl
  · intro inv h
    unfold getInvoice at h
    cases hfind : store.invoices.find? (fun i => decide (i.id = id)) with
    | none => rw [hfind] at h; cases h
    | some raw =>
      rw [hfind] at h
      injection h with h
      subst h
      rw [statusSpec_refresh]
      rfl
  · intro s' inv h
    unfold addInvoiceItem at h
    cases hfind : store.invoices.find? (fun i => decide (i.id = id)) with
    | none => rw [hfind] at h; cases h
    | some raw =>
      rw [hfind] at h
      injection h with h
      injection h with _ h
      subst h
      exact itemUpdate_status today _
  · intro s' inv h
    unfold recordPayment at h
    cases hfind : store.invoices.find? (fun i => decide (i.id = id)) with
    | none => rw [hfind] at h; cases h
    | some raw =>
      rw [hfind] at h
      cases hiso : toISO pin.payment_date with
      | none => rw [hiso] at h; cases h
      | some pd =>
        rw [hiso] at h
        injection h with h
        injection h with _ h
        subst h
        exact payUpdate_status today _

/-- A payment input of 1, used as a dummy argument by witnesses. -/
def pin1 : RecordPaymentInput :=
  { amount := .num 1, payment_date := "2025-06-01", payment_method := "UPI" }

/-- A creation input with no items, used as a dummy argument by witnesses. -/
def cin1 : CreateInvoiceInput :=
  { booking_id := "b", due_date := "2025-06-01", items := [] }

/-- Witness for the amended claim C2: the invoice handed back by
`getInvoice` on `invJune` satisfies the status characterization. -/
theorem c2_status_invariant_witness :
    (refresh 20250611 invJune).status =
      some (statusSpec 20250611 (refresh 20250611 invJune)) := by
  have h := (c2_status_invariant 20250611 none { invoices := [invJune] } "i3" "it"
      "p" "d" (.num 1) pin1 2025 (fun _ => "id") cin1).2.1
  exact h (refresh 20250611 invJune) rfl

/-- A minimal invoice record carrying a given invoice number. -/
def mkInv (n : String) : Invoice :=
  { id := n, booking_id := "bk", invoice_number := n, total_amount := .num 0,
    due_date := "2025-01-01", status := some .Unpaid, items := none,
    payments := none }

/-- Claim C5: the allocator scans only numbers with the current-year prefix
`INV-<year>-` and returns the zero-padded successor of the maximum parsed
suffix: an empty collection (or one with only other-prefix numbers) yields
`INV-<year>-0001`; an invoice number not bearing the current prefix never
affects the result; `{INV-2025-0001, INV-2025-0003}` yields `INV-2025-0004`
(gaps are not filled); a prior-year number does not affect a new year. -/
theorem c5_next_invoice_number :
    (∀ year : Nat, nextInvoiceNumber year [] =
      "INV-" ++ toString year ++ "-" ++ "0001") ∧
    (∀ (year : Nat) (inv : Invoice) (rest : List Invoice),
      jsStartsWith inv.invoice_number ("INV-" ++ toString year ++ "-") = false →
      nextInvoiceNumber year (inv :: rest) = nextInvoiceNumber year rest) ∧
    nextInvoiceNumber 2025 [mkInv "INV-2025-0001", mkInv "INV-2025-0003"] =
      "INV-2025-0004" ∧
    nextInvoiceNumber 2026 [mkInv "INV-2025-0007"] = "INV-2026-0001" := by
  refine ⟨fun year => rfl, ?_, by decide, by decide⟩
  intro year inv rest h
  simp [nextInvoiceNumber, List.filter_cons, h]

/-- Witness for claim C5: a prior-year number is ignored by the allocator. -/
theorem c5_next_invoice_number_witness :
    nextInvoiceNumber 2025 [mkInv "INV-2024-0009"] = nextInvoiceNumber 2025 [] :=
  c5_next_invoice_number.2.1 2025 (mkInv "INV-2024-0009") [] (by decide)

/-- Claim C7: for an invoice id not present in the store, `addInvoiceItem`
and `recordPayment` each fail with the not-found error, and the persisted
store is left unchanged (the exception propagates before `save`). -/
theorem c7_not_found (today : Int) (itemId payId id desc : String)
    (amt : JsNum) (pin : RecordPaymentInput) (store : Store)
    (h : ∀ i ∈ store.invoices, i.id ≠ id) :
    addInvoiceItem today itemId store id desc amt = .error .notFound ∧
    recordPayment today payId store id pin = .error .notFound ∧
    persistAfter store (addInvoiceItem today itemId store id desc amt) = store ∧
    persistAfter store (recordPayment today payId store id pin) = store := by
  have hfind : store.invoices.find? (fun i => decide (i.id = id)) = none := by
    rw [List.find?_eq_none]
    intro i hi
    simpa using h i hi
  have h1 : addInvoiceItem today itemId store id desc amt = .error .notFound := by
    unfold addInvoiceItem
    rw [hfind]
  have h2 : recordPayment today payId store id pin = .error .notFound := by
    unfold recordPayment
    rw [hfind]
  exact ⟨h1, h2, by rw [h1]; rfl, by rw [h2]; rfl⟩

/-- Witness for claim C7 on a store not containing the id `zzz`. -/
theorem c7_not_found_witness :
    addInvoiceItem 20250611 "it9" { invoices := [invJune] } "zzz" "d" (.num 1) =
      .error .notFound ∧
    recordPayment 20250611 "p9" { invoices := [invJune] } "zzz" pin1 =
      .error .notFound := by
  have h := c7_not_found 20250611 "it9" "p9" "zzz" "d" (.num 1) pin1
    { invoices := [invJune] } (by decide)
  exact ⟨h.1, h.2.1⟩

/-- Claim C8: `deleteInvoice` is idempotent; deleting an id not present in
the store returns the store unchanged, and deleting a present id removes
exactly the invoices bearing that id. -/
theorem c8_delete_invoice (id : String) (store : Store) :
    ((∀ i ∈ store.invoices, i.id ≠ id) → deleteInvoice id store = store) ∧
    (∀ inv, inv ∈ (deleteInvoice id store).invoices ↔
      inv ∈ store.invoices ∧ inv.id ≠ id) ∧
    deleteInvoice id (deleteInvoice id store) = deleteInvoice id store := by
  refine ⟨?_, ?_, ?_⟩
  · intro h
    show Store.mk _ = _
    have he : store.invoices.filter (fun i => !decide (i.id = id)) = store.invoices := by
      rw [List.filter_eq_self]
      intro a ha
      simpa using h a ha
    rw [he]
  · intro inv
    simp [deleteInvoice, List.mem_filter]
  · simp [deleteInvoice, List.filter_filter]

/-- Witness for claim C8: deleting the absent id `zzz` leaves the
one-invoice store unchanged. -/
theorem c8_delete_invoice_witness :
    deleteInvoice "zzz" { invoices := [invJune] } = { invoices := [invJune] } :=
  (c8_delete_invoice "zzz" { invoices := [invJune] }).1 (by decide)

/-- What `JSON.parse` of the persisted text yields when it succeeds: either a
value of the `Store` shape, or some other JSON value (for example the number
5) whose `invoices` member is not an iterable array. -/
inductive StoreValue where
  | wellFormed : Store → StoreValue
  | notAStore : String → StoreValue
deriving DecidableEq, Repr

/-- The persisted `localStorage` cell: absent, text `JSON.parse` throws on,
or text that parses to `v`. -/
inductive RawState where
  | missing : RawState
  | unparseable : String → RawState
  | parsed : StoreValue → RawState
deriving DecidableEq, Repr

/-- `load` (repository lines 12–20): an absent value and a parse failure both
fall back to the empty store; a successfully parsed value is returned as-is,
unvalidated. -/
def load : RawState → StoreValue
  | .missing => .wellFormed { invoices := [] }
  | .unparseable _ => .wellFormed { invoices := [] }
  | .parsed v => v

/-- `listInvoices` as called against the persisted cell: on a non-store
parsed value, `[...store.invoices]` spreads a non-iterable and throws a
`TypeError`. -/
def listInvoicesRaw (today : Int) (filters : Option InvoiceFilters)
    (r : RawState) : Except JsError (List Invoice) :=
  match load r with
  | .wellFormed s => .ok (listInvoices today filters s)
  | .notAStore _ => .error .typeError

/-- `getInvoice` as called against the persisted cell: on a non-store parsed
value, `store.invoices.find` dereferences a non-object and throws. -/
def getInvoiceRaw (today : Int) (r : RawState) (id : String) :
    Except JsError (Option Invoice) :=
  match load r with
  | .wellFormed s => .ok (getInvoice today s id)
  | .notAStore _ => .error .typeError

/-- Claim C9: a missing or unparseable persisted value makes `load` return
the empty store rather than raising, so repository operations on such a cell
behave exactly as on an empty store. -/
theorem c9_corrupt_storage (today : Int) (f : Option InvoiceFilters)
    (raw id : String) :
    load .missing = .wellFormed { invoices := [] } ∧
    load (.unparseable raw) = .wellFormed { invoices := [] } ∧
    listInvoicesRaw today f .missing =
      .ok (listInvoices today f { invoices := [] }) ∧
    listInvoicesRaw today f (.unparseable raw) =
      .ok (listInvoices today f { invoices := [] }) ∧
    getInvoiceRaw today .missing id = .ok none ∧
    getInvoiceRaw today (.unparseable raw) id = .ok none := by
  exact ⟨rfl, rfl, rfl, rfl, rfl, rfl⟩

/-- The page height of the generated document is positive. -/
theorem thousandPos : (0 : ℚ) < 1000 := by norm_num

/-- The `while (heightLeft > 0)` loop of `exportElementToPDF` (pdf.ts lines
37–42): each iteration adds a page, advances `position` by `pageHeight`, and
places the full image at the y-offset `-position`; the returned list holds
the y-offset passed to `addImage` for each added page. -/
def pdfLoop (pageHeight : ℚ) (hp : 0 < pageHeight) (heightLeft position : ℚ) :
    List ℚ :=
  if h : 0 < heightLeft then
    (-(position + pageHeight)) ::
      pdfLoop pageHeight hp (heightLeft - pageHeight) (position + pageHeight)
  else []
termination_by (Int.ceil (heightLeft / pageHeight)).toNat
decreasing_by
  have h1 : (heightLeft - pageHeight) / pageHeight = heightLeft / pageHeight - 1 := by
    field_simp
  rw [h1, Int.ceil_sub_one]
  have h2 : 0 < Int.ceil (heightLeft / pageHeight) :=
    Int.ceil_pos.mpr (div_pos h hp)
  omega

/-- `exportElementToPDF` pagination (pdf.ts lines 30–42): the y-offsets at
which the full image is placed, one list entry per emitted page.  The first
page places the image at offset 0; afterwards `heightLeft = imgHeight -
pageHeight` and `position = -pageHeight` enter the loop. -/
def exportPlacements (imgHeight pageHeight : ℚ) (hp : 0 < pageHeight) : List ℚ :=
  0 :: pdfLoop pageHeight hp (imgHeight - pageHeight) (-pageHeight)

/-- Claim C3 evaluated at the claimed scenario (image height 3000, page
height 1000): the code emits exactly 3 pages as claimed, but places the image
at offsets `[0, 0, -1000]`, not the claimed `[0, -1000, -2000]` — page 1
(0-indexed) repeats page 0's slice and the bottom third of the image never
appears on any page. -/
theorem c3_pagination_eval :
    exportPlacements 3000 1000 thousandPos = [0, 0, -1000] ∧
    (exportPlacements 3000 1000 thousandPos).length = 3 ∧
    exportPlacements 3000 1000 thousandPos ≠ [0, -1000, -2000] := by
  have s0 : pdfLoop 1000 thousandPos 0 1000 = [] := by
    rw [pdfLoop]
    norm_num
  have s1 : pdfLoop 1000 thousandPos 1000 0 = [-1000] := by
    rw [pdfLoop]
    norm_num [s0]
  have s2 : pdfLoop 1000 thousandPos 2000 (-1000) = [0, -1000] := by
    rw [pdfLoop]
    norm_num [s1]
  have e : exportPlacements 3000 1000 thousandPos = [0, 0, -1000] := by
    unfold exportPlacements
    norm_num [s2]
  refine ⟨e, by rw [e]; rfl, by rw [e]; norm_num⟩

end TMS
